import Mathlib

/-!
# CPU reduction strategy (ReductionStrategy.cpp)

A shallow embedding of
`compiler/src/iree/compiler/Codegen/TransformDialectStrategies/CPU/ReductionStrategy.cpp`:

* `getReductionConfig`            (source lines 94-97)
* `ReductionStrategy.configure`   (source lines 46-54)
* `ReductionStrategy.create`      (source lines 36-44)
* `buildReductionStrategy`        (source lines 59-92)

Machine integers: an `int64_t` is an integer with its two range bounds (`I64`).
The conversion of an `int64_t` to the unsigned 64-bit count taken by
`SmallVector::append(size_type, T)` and by the constructor `SmallVector(size_t, T)`
is reduction modulo `2^64`, so a negative `int64_t` becomes a count of at least
`2^63`.

A `SmallVector<int64_t>` is a `List Int`.  In `configure` the call `append` is
fallible: a count above `PTRDIFF_MAX = 2^63 - 1` is more than any object can hold,
so the call does not return and `configure`, hence `create`, yields no strategy;
the subtraction `reductionRank - 1` has no result where it overflows.  Up to that
count the embedding has no allocation limit: the request is carried out.  The
tile-size list of step 3 is built without the limit; it is the list of the code
for every rank from `1` on.

The transform IR under construction is the list of operations the builder has
created so far, in creation order.
-/

namespace mlir

/-! ## Machine integers -/

/-- An `int64_t`: an integer in `[-2^63, 2^63)`. -/
structure I64 where
  val : Int
  lo : -9223372036854775808 ≤ val
  hi : val < 9223372036854775808

/-- Reduction of an arbitrary integer into the `int64_t` range (two's complement). -/
def I64.wrap (n : Int) : I64 :=
  ⟨(n + 9223372036854775808) % 18446744073709551616 - 9223372036854775808,
    by omega, by omega⟩

/-- The `int64_t` subtraction `a - b`, as the machine computes it. -/
def I64.sub (a b : I64) : I64 := I64.wrap (a.val - b.val)

/-- The `int64_t` subtraction `a - b` of the language: signed overflow is undefined
behaviour, so there is no result when `a - b` leaves the `int64_t` range. -/
def I64.subChecked (a b : I64) : Option I64 :=
  if h : -9223372036854775808 ≤ a.val - b.val ∧ a.val - b.val < 9223372036854775808 then
    some ⟨a.val - b.val, h.1, h.2⟩
  else none

/-- The constant `1` of type `int64_t`. -/
def I64.one : I64 := ⟨1, by decide, by decide⟩

/-- Conversion of an `int64_t` to `size_t` (an unsigned 64-bit count). -/
def toSizeT (x : I64) : Nat := (x.val % 18446744073709551616).toNat

/-- The largest number of elements an object can hold: `PTRDIFF_MAX = 2^63 - 1`. -/
def maxObjectCount : Nat := 9223372036854775807

/-- The call `SmallVector<int64_t>::append(NumInputs, Elt)`, a member of the LLVM support
library.  A count above `maxObjectCount` cannot be held by any container: the call does not
return (the library aborts), which is the result `none`.  Any smaller count is carried
out: `NumInputs` copies of `Elt` go to the end of the vector. -/
def SmallVector.append (v : List Int) (numInputs : Nat) (elt : Int) : Option (List Int) :=
  if numInputs ≤ maxObjectCount then some (v ++ List.replicate numInputs elt) else none

/-! ## Data model -/

/-- The `MLIRContext *` a strategy is bound to; only its identity matters. -/
structure MLIRContext where
  id : Nat
  deriving DecidableEq, Repr

namespace transform_ext

/-- Modelled from the spec: the declaration of `MatchedReductionCaptures` is not part of
`ReductionStrategy.cpp`; the three `int64_t` fields the file reads are kept. -/
structure MatchedReductionCaptures where
  reductionRank : I64
  maybeLeadingRank : I64
  maybeTrailingRank : I64

end transform_ext

/-- Modelled from the spec: a handle (SSA value of the transform IR).  A handle is either
supplied by the caller or is result number `idx` of the operation created at position `op`
of the sequence. -/
inductive Value where
  | arg (id : Nat)
  | result (op : Nat) (idx : Nat)
  deriving DecidableEq, Repr

namespace transform

/-- The failure propagation modes of a transform operation. -/
inductive FailurePropagationMode where
  | Propagate
  | Suppress
  deriving DecidableEq, Repr

end transform

namespace iree_compiler

/-- Modelled from the spec: one operation created by a helper whose body is not part of
`ReductionStrategy.cpp`; the embedding does not look inside it. -/
structure HelperOp where
  code : Nat
  deriving DecidableEq, Repr

/-- Modelled from the spec: the operations `buildReductionStrategy` adds to the transform IR.
`blockDistribution` and `commonTrailing` tag the operations created by the two helpers
`buildReductionStrategyBlockDistribution` and `buildCommonTrailingStrategy`.
`tileFuseToScfFor` is the operation created by `buildTileFuseToScfFor`; its middle argument
is the brace-initialised third argument of the call, which the spec reads as the loop
ordering override. -/
inductive TransformOp where
  | registerMatchCallbacks
  | matchCallback (name : String) (mode : transform.FailurePropagationMode) (target : Value)
  | blockDistribution (op : HelperOp)
  | tileFuseToScfFor (target : Value) (ordering : List Nat) (tileSizes : List Int)
  | commonTrailing (op : HelperOp)
  deriving DecidableEq, Repr

/-- The `ImplicitLocOpBuilder`: the operations created so far, in order. -/
structure ImplicitLocOpBuilder where
  ops : List TransformOp
  deriving DecidableEq, Repr

/-- The call `b.create<Op>(...)`: the new operation goes to the end of the sequence. -/
def ImplicitLocOpBuilder.create (b : ImplicitLocOpBuilder) (op : TransformOp) :
    ImplicitLocOpBuilder :=
  ⟨b.ops ++ [op]⟩

namespace cpu

open transform_ext

/-- Modelled from the spec: `ReductionConfig` is the plain value `{ vectorSize }`. -/
structure ReductionConfig where
  vectorSize : Int
  deriving DecidableEq, Repr

/-- Modelled from the spec: the class `ReductionStrategy` (with its base
`AbstractReductionStrategy`) is declared in headers that are not part of
`ReductionStrategy.cpp`: a copy of the captures, the workgroup tile sizes and the vector
size. -/
structure ReductionStrategy where
  context : MLIRContext
  captures : MatchedReductionCaptures
  workgroupTileSizes : List Int
  vectorSize : Int

/-- Modelled from the spec: the constructor `ReductionStrategy(context, captures)` binds the
strategy to the captures and starts with no tile size.  The vector size is not set by the
constructor; `0` stands for the value it has before `configure` writes it. -/
def ReductionStrategy.new (context : MLIRContext) (captures : MatchedReductionCaptures) :
    ReductionStrategy :=
  { context := context, captures := captures, workgroupTileSizes := [], vectorSize := 0 }

/-- Modelled from the spec: the accessor `getVectorSize()` returns the stored vector width. -/
def ReductionStrategy.getVectorSize (strategy : ReductionStrategy) : Int :=
  strategy.vectorSize

/-- Source lines 94-97: `return ReductionConfig{16};`. -/
def getReductionConfig (_captures : MatchedReductionCaptures) : ReductionConfig :=
  { vectorSize := 16 }

/-- Source lines 46-54.  `numParallelLoops` is the `int64_t` value `reductionRank - 1`;
`append(numParallelLoops, 8)` converts it to `size_t` and pushes that many copies of `8`
at the end of `workgroupTileSizes`; then the vector size is stored.  The result is `none`
when the function does not return: the subtraction overflows or the append cannot be
carried out. -/
def ReductionStrategy.configure (strategy : ReductionStrategy) (config : ReductionConfig) :
    Option ReductionStrategy :=
  match I64.subChecked strategy.captures.reductionRank I64.one with
  | none => none
  | some numParallelLoops =>
    match SmallVector.append strategy.workgroupTileSizes (toSizeT numParallelLoops) 8 with
    | none => none
    | some tileSizes =>
      some { strategy with workgroupTileSizes := tileSizes, vectorSize := config.vectorSize }

/-- Source lines 36-44.  The debug trace line has no effect on the result.  A strategy is
returned only when `configure` returns. -/
def ReductionStrategy.create (context : MLIRContext) (captures : MatchedReductionCaptures) :
    Option ReductionStrategy :=
  let reductionConfig := getReductionConfig captures
  let strategy := ReductionStrategy.new context captures
  strategy.configure reductionConfig

/-- The four handles and the operations produced by the block distribution helper. -/
structure BlockDistributionResult where
  maybeLeadingHBlock : Value
  gridFillH : Value
  gridReductionH : Value
  maybeTiledTrailingHBlock : Value
  ops : List HelperOp

/-- Modelled from the spec: the two helpers `buildReductionStrategyBlockDistribution` and
`buildCommonTrailingStrategy` are defined outside `ReductionStrategy.cpp` and are taken as
parameters.  Each sees the builder and its arguments and says which operations it adds at
the end of the sequence; block distribution also returns its four handles. -/
structure Helpers where
  buildReductionStrategyBlockDistribution :
    ImplicitLocOpBuilder → Value → Value → Value → Value → ReductionStrategy →
      BlockDistributionResult
  buildCommonTrailingStrategy : ImplicitLocOpBuilder → Value → List HelperOp

/-- Modelled from the spec: `unpackRegisteredMatchCallback<4>` is defined outside
`ReductionStrategy.cpp`.  It creates one match operation for the named callback over the
target handle with the given failure propagation mode and returns the four results of that
operation. -/
def unpackRegisteredMatchCallback4 (b : ImplicitLocOpBuilder) (name : String)
    (mode : transform.FailurePropagationMode) (target : Value) :
    (Value × Value × Value × Value) × ImplicitLocOpBuilder :=
  let n := b.ops.length
  ((Value.result n 0, Value.result n 1, Value.result n 2, Value.result n 3),
    b.create (TransformOp.matchCallback name mode target))

/-- Modelled from the spec: `buildTileFuseToScfFor` is defined outside
`ReductionStrategy.cpp`.  It adds one tile-and-fuse operation with the given target, third
argument and tile sizes; the handles it returns are not used by the caller. -/
def buildTileFuseToScfFor (b : ImplicitLocOpBuilder) (target : Value) (ordering : List Nat)
    (tileSizes : List Int) : ImplicitLocOpBuilder :=
  b.create (TransformOp.tileFuseToScfFor target ordering tileSizes)

/-- Source lines 84-85: `SmallVector<int64_t> tileSizes(rank - 1, 0)` followed by
`tileSizes.push_back(strategy.getVectorSize())`. -/
def vectorTileSizes (strategy : ReductionStrategy) (rank : I64) : List Int :=
  List.replicate (toSizeT (I64.sub rank I64.one)) 0 ++ [strategy.getVectorSize]

/-- Source lines 83-87: the body of the loop of step 3 for one pair `(val, rank)`. -/
def vectorTileStep (strategy : ReductionStrategy) (b : ImplicitLocOpBuilder)
    (slot : Value × I64) : ImplicitLocOpBuilder :=
  if slot.2.val = 0 then b
  else buildTileFuseToScfFor b slot.1 [] (vectorTileSizes strategy slot.2)

/-- Source lines 64-68, step 1: register the match callbacks, then run the matcher named
"reduction" over `variantH`; the four handles are `maybeLeadingH`, `fillH`, `reductionH`
and `maybeTrailingH`, in this order. -/
def matchStep (b : ImplicitLocOpBuilder) (variantH : Value) :
    (Value × Value × Value × Value) × ImplicitLocOpBuilder :=
  unpackRegisteredMatchCallback4 (b.create TransformOp.registerMatchCallbacks) "reduction"
    transform.FailurePropagationMode.Propagate variantH

/-- Source lines 72-75, step 2: block distribution of the four matched handles. -/
def blockDistributionStep (helpers : Helpers) (b : ImplicitLocOpBuilder) (variantH : Value)
    (strategy : ReductionStrategy) : BlockDistributionResult × ImplicitLocOpBuilder :=
  let m := matchStep b variantH
  let d := helpers.buildReductionStrategyBlockDistribution m.2 m.1.1 m.1.2.1 m.1.2.2.1
    m.1.2.2.2 strategy
  (d, ⟨m.2.ops ++ d.ops.map TransformOp.blockDistribution⟩)

/-- Source lines 79-82: the three pairs `(val, rank)` the loop of step 3 runs over. -/
def vectorTileSlots (d : BlockDistributionResult) (strategy : ReductionStrategy) :
    List (Value × I64) :=
  [(d.maybeLeadingHBlock, strategy.captures.maybeLeadingRank),
   (d.gridReductionH, strategy.captures.reductionRank),
   (d.maybeTiledTrailingHBlock, strategy.captures.maybeTrailingRank)]

/-- Source lines 79-88, step 3: the loop over the three pairs. -/
def vectorTilingStep (helpers : Helpers) (b : ImplicitLocOpBuilder) (variantH : Value)
    (strategy : ReductionStrategy) : ImplicitLocOpBuilder :=
  let s := blockDistributionStep helpers b variantH strategy
  List.foldl (vectorTileStep strategy) s.2 (vectorTileSlots s.1 strategy)

/-- Source lines 59-92: steps 1 to 3, then the common trailing steps on `variantH`. -/
def buildReductionStrategy (helpers : Helpers) (b : ImplicitLocOpBuilder) (variantH : Value)
    (strategy : ReductionStrategy) : ImplicitLocOpBuilder :=
  let b4 := vectorTilingStep helpers b variantH strategy
  ⟨b4.ops ++ (helpers.buildCommonTrailingStrategy b4 variantH).map TransformOp.commonTrailing⟩

/-! ## Vocabulary of the statements -/

/-- The operations a call has added: what follows the operations present before it. -/
def emitted (before after : ImplicitLocOpBuilder) : List TransformOp :=
  after.ops.drop before.ops.length

/-- Recognises the tile-and-fuse operations. -/
def TransformOp.isTileFuseToScfFor : TransformOp → Bool
  | TransformOp.tileFuseToScfFor _ _ _ => true
  | _ => false

/-- The tile-and-fuse operations among the operations a call has added, in order. -/
def vectorTilingOps (before after : ImplicitLocOpBuilder) : List TransformOp :=
  (emitted before after).filter TransformOp.isTileFuseToScfFor

/-- The operations one pass of the loop body of step 3 adds for the pair `slot`: what
`vectorTileStep` creates when it starts from an empty sequence. -/
def vectorTileOps (strategy : ReductionStrategy) (slot : Value × I64) : List TransformOp :=
  (vectorTileStep strategy ⟨[]⟩ slot).ops

/-- The three op slots of step 3. -/
inductive Slot where
  | leading
  | reduction
  | trailing
  deriving DecidableEq, Repr

/-- The rank of a slot: the capture the loop of step 3 pairs with it. -/
def Slot.rank (c : MatchedReductionCaptures) : Slot → I64
  | Slot.leading => c.maybeLeadingRank
  | Slot.reduction => c.reductionRank
  | Slot.trailing => c.maybeTrailingRank

/-- The handle of a slot: the block distribution result the loop of step 3 pairs with it. -/
def Slot.handle (d : BlockDistributionResult) : Slot → Value
  | Slot.leading => d.maybeLeadingHBlock
  | Slot.reduction => d.gridReductionH
  | Slot.trailing => d.maybeTiledTrailingHBlock

/-- The `workgroupTileSizes.length == reductionRank - 1` invariant of the data model. -/
def ReductionStrategy.lengthInvariant (strategy : ReductionStrategy) : Prop :=
  (strategy.workgroupTileSizes.length : Int) = strategy.captures.reductionRank.val - 1

/-- The length invariant can be checked by evaluation. -/
instance (strategy : ReductionStrategy) : Decidable strategy.lengthInvariant :=
  inferInstanceAs (Decidable
    ((strategy.workgroupTileSizes.length : Int) = strategy.captures.reductionRank.val - 1))

/-! ## Concrete inputs -/

/-- An `int64_t` given by a small literal. -/
def I64.lit (n : Fin 1024) : I64 := ⟨(n.val : Int), by omega, by omega⟩

/-- Captures with the three given small ranks. -/
def capturesOf (reduction leading trailing : Fin 1024) : MatchedReductionCaptures :=
  { reductionRank := I64.lit reduction
    maybeLeadingRank := I64.lit leading
    maybeTrailingRank := I64.lit trailing }

/-- The strategy for `reductionRank = 3` with no leading and no trailing op. -/
def scenarioA (context : MLIRContext) : ReductionStrategy :=
  { context := context, captures := capturesOf 3 0 0, workgroupTileSizes := [8, 8],
    vectorSize := 16 }

/-- The strategy for `reductionRank = 1` with a leading op of rank `2` and no trailing op. -/
def scenarioB (context : MLIRContext) : ReductionStrategy :=
  { context := context, captures := capturesOf 1 2 0, workgroupTileSizes := [],
    vectorSize := 16 }

/-- A strategy for reduction rank `3` that already holds one tile size. -/
def preconfigured : ReductionStrategy :=
  { context := ⟨0⟩, captures := capturesOf 3 0 0, workgroupTileSizes := [5], vectorSize := 0 }

/-- A sample pair of helpers: block distribution creates one operation and returns handles
`100` to `103`, the common trailing strategy creates two operations. -/
def sampleHelpers : Helpers :=
  { buildReductionStrategyBlockDistribution := fun _ _ _ _ _ _ =>
      { maybeLeadingHBlock := Value.arg 100
        gridFillH := Value.arg 101
        gridReductionH := Value.arg 102
        maybeTiledTrailingHBlock := Value.arg 103
        ops := [⟨1⟩] }
    buildCommonTrailingStrategy := fun _ _ => [⟨2⟩, ⟨3⟩] }

end cpu
end iree_compiler
end mlir

namespace mlir.iree_compiler.cpu

open mlir mlir.transform_ext

/-! ## Machine integer facts -/

theorem toSizeT_sub_one_of_pos (r : I64) (h : 1 ≤ r.val) :
    toSizeT (I64.sub r I64.one) = (r.val - 1).toNat := by
  have hlo := r.lo
  have hhi := r.hi
  simp only [toSizeT, I64.sub, I64.wrap, I64.one]
  congr 1
  omega

/-! ## The strategy builder -/

theorem subChecked_one_of_gt_min (r : I64) (h : -9223372036854775808 < r.val) :
    ∃ n : I64, I64.subChecked r I64.one = some n ∧ n.val = r.val - 1 := by
  have hhi := r.hi
  have hb : -9223372036854775808 ≤ r.val - I64.one.val
      ∧ r.val - I64.one.val < 9223372036854775808 := by
    simp only [I64.one]
    omega
  refine ⟨⟨r.val - I64.one.val, hb.1, hb.2⟩, ?_, rfl⟩
  unfold I64.subChecked
  rw [dif_pos hb]

theorem subChecked_one_of_min (r : I64) (h : r.val = -9223372036854775808) :
    I64.subChecked r I64.one = none := by
  have hb : ¬ (-9223372036854775808 ≤ r.val - I64.one.val
      ∧ r.val - I64.one.val < 9223372036854775808) := by
    simp only [I64.one]
    omega
  unfold I64.subChecked
  rw [dif_neg hb]

theorem configure_of_pos (s : ReductionStrategy) (config : ReductionConfig)
    (h : 1 ≤ s.captures.reductionRank.val) :
    s.configure config =
      some { s with
        workgroupTileSizes :=
          s.workgroupTileSizes ++ List.replicate (s.captures.reductionRank.val - 1).toNat 8
        vectorSize := config.vectorSize } := by
  have hhi := s.captures.reductionRank.hi
  obtain ⟨n, hn, hval⟩ := subChecked_one_of_gt_min s.captures.reductionRank (by omega)
  have hcount : toSizeT n = (s.captures.reductionRank.val - 1).toNat := by
    simp only [toSizeT, hval]
    congr 1
    omega
  have hle : (s.captures.reductionRank.val - 1).toNat ≤ maxObjectCount := by
    simp only [maxObjectCount]
    omega
  unfold ReductionStrategy.configure
  rw [hn]
  dsimp only
  unfold SmallVector.append
  rw [hcount, if_pos hle]

theorem configure_of_lt_one (s : ReductionStrategy) (config : ReductionConfig)
    (h : s.captures.reductionRank.val < 1) :
    s.configure config = none := by
  have hlo := s.captures.reductionRank.lo
  by_cases hmin : s.captures.reductionRank.val = -9223372036854775808
  · unfold ReductionStrategy.configure
    rw [subChecked_one_of_min _ hmin]
  · obtain ⟨n, hn, hval⟩ := subChecked_one_of_gt_min s.captures.reductionRank (by omega)
    have hgt : ¬ toSizeT n ≤ maxObjectCount := by
      simp only [toSizeT, hval, maxObjectCount]
      omega
    unfold ReductionStrategy.configure
    rw [hn]
    dsimp only
    unfold SmallVector.append
    rw [if_neg hgt]

theorem create_of_pos (context : MLIRContext) (c : MatchedReductionCaptures)
    (h : 1 ≤ c.reductionRank.val) :
    ReductionStrategy.create context c =
      some { context := context, captures := c,
             workgroupTileSizes := List.replicate (c.reductionRank.val - 1).toNat 8,
             vectorSize := 16 } := by
  unfold ReductionStrategy.create
  rw [configure_of_pos _ _ (by exact h)]
  rfl

/-- C1: for captures with `reductionRank = r >= 1`, `create` returns a strategy; it has
exactly `r - 1` workgroup tile sizes, each equal to `8`; so the length invariant holds for
it. -/
theorem create_workgroupTileSizes_spec (context : MLIRContext) (c : MatchedReductionCaptures)
    (h : 1 ≤ c.reductionRank.val) :
    ∃ s : ReductionStrategy, ReductionStrategy.create context c = some s
      ∧ (s.workgroupTileSizes.length : Int) = c.reductionRank.val - 1
      ∧ (∀ x ∈ s.workgroupTileSizes, x = 8)
      ∧ s.lengthInvariant := by
  refine ⟨_, create_of_pos context c h, ?_, ?_, ?_⟩
  · simp only [List.length_replicate]
    omega
  · intro x hx
    exact List.eq_of_mem_replicate hx
  · unfold ReductionStrategy.lengthInvariant
    simp only [List.length_replicate]
    omega

theorem create_workgroupTileSizes_spec_witness :
    (1 : Int) ≤ (capturesOf 3 0 0).reductionRank.val
      ∧ ∃ s : ReductionStrategy, ReductionStrategy.create ⟨0⟩ (capturesOf 3 0 0) = some s
        ∧ (s.workgroupTileSizes.length : Int) = (capturesOf 3 0 0).reductionRank.val - 1
        ∧ (∀ x ∈ s.workgroupTileSizes, x = 8)
        ∧ s.lengthInvariant :=
  ⟨by decide, create_workgroupTileSizes_spec ⟨0⟩ (capturesOf 3 0 0) (by decide)⟩

/-- C2: captures with `reductionRank < 1` are rejected.  `create` returns no strategy for
them, and `configure` returns none on any strategy bound to them, whatever tile sizes and
vector size it holds; so no strategy with a malformed tile-size list comes out. -/
theorem create_rejects_rank_lt_one (context : MLIRContext) (c : MatchedReductionCaptures)
    (h : c.reductionRank.val < 1) :
    ReductionStrategy.create context c = none
      ∧ ∀ (s : ReductionStrategy) (config : ReductionConfig),
          s.captures = c → s.configure config = none := by
  refine ⟨?_, ?_⟩
  · unfold ReductionStrategy.create
    exact configure_of_lt_one _ _ (by exact h)
  · intro s config hs
    exact configure_of_lt_one s config (by rw [hs]; exact h)

theorem create_rejects_rank_lt_one_witness :
    (capturesOf 0 0 0).reductionRank.val < 1
      ∧ ReductionStrategy.create ⟨0⟩ (capturesOf 0 0 0) = none
      ∧ ∀ (s : ReductionStrategy) (config : ReductionConfig),
          s.captures = capturesOf 0 0 0 → s.configure config = none :=
  ⟨by decide, create_rejects_rank_lt_one ⟨0⟩ (capturesOf 0 0 0) (by decide)⟩

/-- C4: for captures with `reductionRank >= 1`, `create` returns a strategy whose vector
size, read through `getVectorSize`, is the vector size of `getReductionConfig captures`,
which is `16`. -/
theorem create_getVectorSize (context : MLIRContext) (c : MatchedReductionCaptures)
    (h : 1 ≤ c.reductionRank.val) :
    ∃ s : ReductionStrategy, ReductionStrategy.create context c = some s
      ∧ s.getVectorSize = (getReductionConfig c).vectorSize
      ∧ (getReductionConfig c).vectorSize = 16 :=
  ⟨_, create_of_pos context c h, rfl, rfl⟩

theorem create_getVectorSize_witness :
    (1 : Int) ≤ (capturesOf 1 2 0).reductionRank.val
      ∧ ∃ s : ReductionStrategy, ReductionStrategy.create ⟨0⟩ (capturesOf 1 2 0) = some s
        ∧ s.getVectorSize = (getReductionConfig (capturesOf 1 2 0)).vectorSize
        ∧ (getReductionConfig (capturesOf 1 2 0)).vectorSize = 16 :=
  ⟨by decide, create_getVectorSize ⟨0⟩ (capturesOf 1 2 0) (by decide)⟩

/-- C7: `getReductionConfig` is a total function whose result has vector size `16` for every
captures value; any two calls, on equal or on different captures, return equal configs. -/
theorem getReductionConfig_const :
    (∀ c : MatchedReductionCaptures, (getReductionConfig c).vectorSize = 16)
      ∧ (∀ c : MatchedReductionCaptures, getReductionConfig c = { vectorSize := 16 })
      ∧ (∀ c₁ c₂ : MatchedReductionCaptures, c₁ = c₂ →
          getReductionConfig c₁ = getReductionConfig c₂)
      ∧ (∀ c₁ c₂ : MatchedReductionCaptures, getReductionConfig c₁ = getReductionConfig c₂) :=
  ⟨fun _ => rfl, fun _ => rfl, fun _ _ _ => rfl, fun _ _ => rfl⟩

/-- C10: `configure` appends.  For a strategy with `reductionRank = r >= 1` and tile sizes
`ts`, `configure config` returns a strategy that keeps the captures, has vector size
`config.vectorSize` and has as tile sizes `ts` followed by `r - 1` copies of `8`; two calls
on a fresh strategy both return and give `2 * (r - 1)` entries; the length invariant holds
afterwards exactly when `ts` is empty, hence only when `ts` is empty or `r = 1`. -/
theorem configure_appends (s : ReductionStrategy) (config : ReductionConfig) (ts : List Int)
    (hr : 1 ≤ s.captures.reductionRank.val) (hts : s.workgroupTileSizes = ts) :
    ∃ s₁ s₂ s₃ : ReductionStrategy,
      s.configure config = some s₁
      ∧ s₁.captures = s.captures
      ∧ s₁.vectorSize = config.vectorSize
      ∧ s₁.workgroupTileSizes
          = ts ++ List.replicate (s.captures.reductionRank.val - 1).toNat 8
      ∧ (ReductionStrategy.new s.context s.captures).configure config = some s₂
      ∧ s₂.configure config = some s₃
      ∧ (s₃.workgroupTileSizes.length : Int) = 2 * (s.captures.reductionRank.val - 1)
      ∧ (s₁.lengthInvariant ↔ ts = [])
      ∧ (s₁.lengthInvariant → ts = [] ∨ s.captures.reductionRank.val = 1) := by
  have hnew : 1 ≤ (ReductionStrategy.new s.context s.captures).captures.reductionRank.val := hr
  have h₂ := configure_of_pos (ReductionStrategy.new s.context s.captures) config hnew
  have hiff : ({ s with
        workgroupTileSizes :=
          s.workgroupTileSizes ++ List.replicate (s.captures.reductionRank.val - 1).toNat 8
        vectorSize := config.vectorSize } : ReductionStrategy).lengthInvariant ↔ ts = [] := by
    unfold ReductionStrategy.lengthInvariant
    simp only [hts, List.length_append, List.length_replicate]
    rw [← List.length_eq_zero]
    omega
  refine ⟨_, _, _, configure_of_pos s config hr, rfl, rfl, by rw [hts], h₂,
    configure_of_pos _ config (by exact hr), ?_, hiff, fun hinv => Or.inl (hiff.mp hinv)⟩
  simp only [ReductionStrategy.new, List.nil_append, List.length_append,
    List.length_replicate]
  omega

theorem configure_appends_witness :
    (1 : Int) ≤ preconfigured.captures.reductionRank.val
      ∧ preconfigured.workgroupTileSizes = [5]
      ∧ ∃ s₁ s₂ s₃ : ReductionStrategy,
        preconfigured.configure ⟨16⟩ = some s₁
        ∧ s₁.captures = preconfigured.captures
        ∧ s₁.vectorSize = (ReductionConfig.mk 16).vectorSize
        ∧ s₁.workgroupTileSizes
            = [5] ++ List.replicate (preconfigured.captures.reductionRank.val - 1).toNat 8
        ∧ (ReductionStrategy.new preconfigured.context preconfigured.captures).configure ⟨16⟩
            = some s₂
        ∧ s₂.configure ⟨16⟩ = some s₃
        ∧ (s₃.workgroupTileSizes.length : Int)
            = 2 * (preconfigured.captures.reductionRank.val - 1)
        ∧ (s₁.lengthInvariant ↔ ([5] : List Int) = [])
        ∧ (s₁.lengthInvariant →
            ([5] : List Int) = [] ∨ preconfigured.captures.reductionRank.val = 1) :=
  ⟨by decide, rfl, configure_appends preconfigured ⟨16⟩ [5] (by decide) rfl⟩

/-! ## The emission procedure -/

theorem vectorTileOps_eq (s : ReductionStrategy) (slot : Value × I64) :
    vectorTileOps s slot =
      if slot.2.val = 0 then []
      else [TransformOp.tileFuseToScfFor slot.1 [] (vectorTileSizes s slot.2)] := by
  unfold vectorTileOps vectorTileStep
  split <;> simp [buildTileFuseToScfFor, ImplicitLocOpBuilder.create]

theorem vectorTileStep_ops (s : ReductionStrategy) (b : ImplicitLocOpBuilder)
    (slot : Value × I64) :
    (vectorTileStep s b slot).ops = b.ops ++ vectorTileOps s slot := by
  rw [vectorTileOps_eq]
  unfold vectorTileStep
  split <;> simp [buildTileFuseToScfFor, ImplicitLocOpBuilder.create]

theorem matchStep_handles (b : ImplicitLocOpBuilder) (variantH : Value) :
    (matchStep b variantH).1 =
      (Value.result (b.ops.length + 1) 0, Value.result (b.ops.length + 1) 1,
        Value.result (b.ops.length + 1) 2, Value.result (b.ops.length + 1) 3) := by
  simp [matchStep, unpackRegisteredMatchCallback4, ImplicitLocOpBuilder.create]

theorem matchStep_ops (b : ImplicitLocOpBuilder) (variantH : Value) :
    (matchStep b variantH).2.ops =
      b.ops ++ [TransformOp.registerMatchCallbacks,
        TransformOp.matchCallback "reduction" transform.FailurePropagationMode.Propagate
          variantH] := by
  simp [matchStep, unpackRegisteredMatchCallback4, ImplicitLocOpBuilder.create]

theorem blockDistributionStep_ops (helpers : Helpers) (b : ImplicitLocOpBuilder)
    (variantH : Value) (s : ReductionStrategy) :
    (blockDistributionStep helpers b variantH s).2.ops =
      b.ops ++ [TransformOp.registerMatchCallbacks,
        TransformOp.matchCallback "reduction" transform.FailurePropagationMode.Propagate
          variantH]
        ++ (blockDistributionStep helpers b variantH s).1.ops.map
            TransformOp.blockDistribution := by
  simp [blockDistributionStep, matchStep_ops]

theorem vectorTilingStep_ops (helpers : Helpers) (b : ImplicitLocOpBuilder)
    (variantH : Value) (s : ReductionStrategy) :
    (vectorTilingStep helpers b variantH s).ops =
      (blockDistributionStep helpers b variantH s).2.ops
        ++ (vectorTileOps s ((blockDistributionStep helpers b variantH s).1.maybeLeadingHBlock,
              s.captures.maybeLeadingRank)
          ++ vectorTileOps s ((blockDistributionStep helpers b variantH s).1.gridReductionH,
              s.captures.reductionRank)
          ++ vectorTileOps s
              ((blockDistributionStep helpers b variantH s).1.maybeTiledTrailingHBlock,
              s.captures.maybeTrailingRank)) := by
  simp [vectorTilingStep, vectorTileSlots, List.foldl, vectorTileStep_ops, List.append_assoc]

theorem emitted_buildReductionStrategy (helpers : Helpers) (b : ImplicitLocOpBuilder)
    (variantH : Value) (s : ReductionStrategy) :
    emitted b (buildReductionStrategy helpers b variantH s) =
      [TransformOp.registerMatchCallbacks,
        TransformOp.matchCallback "reduction" transform.FailurePropagationMode.Propagate
          variantH]
        ++ (blockDistributionStep helpers b variantH s).1.ops.map TransformOp.blockDistribution
        ++ (vectorTileOps s ((blockDistributionStep helpers b variantH s).1.maybeLeadingHBlock,
              s.captures.maybeLeadingRank)
          ++ vectorTileOps s ((blockDistributionStep helpers b variantH s).1.gridReductionH,
              s.captures.reductionRank)
          ++ vectorTileOps s
              ((blockDistributionStep helpers b variantH s).1.maybeTiledTrailingHBlock,
              s.captures.maybeTrailingRank))
        ++ (helpers.buildCommonTrailingStrategy (vectorTilingStep helpers b variantH s)
              variantH).map TransformOp.commonTrailing := by
  unfold emitted buildReductionStrategy
  simp only [vectorTilingStep_ops, blockDistributionStep_ops, List.append_assoc]
  exact List.drop_left _ _

theorem filter_isTileFuse_blockDistribution (l : List HelperOp) :
    (l.map TransformOp.blockDistribution).filter TransformOp.isTileFuseToScfFor = [] := by
  induction l with
  | nil => rfl
  | cons x xs ih => simp [TransformOp.isTileFuseToScfFor]

theorem filter_isTileFuse_commonTrailing (l : List HelperOp) :
    (l.map TransformOp.commonTrailing).filter TransformOp.isTileFuseToScfFor = [] := by
  induction l with
  | nil => rfl
  | cons x xs ih => simp [TransformOp.isTileFuseToScfFor]

theorem filter_isTileFuse_vectorTileOps (s : ReductionStrategy) (slot : Value × I64) :
    (vectorTileOps s slot).filter TransformOp.isTileFuseToScfFor = vectorTileOps s slot := by
  rw [vectorTileOps_eq]
  split <;> simp [TransformOp.isTileFuseToScfFor]

theorem vectorTilingOps_buildReductionStrategy (helpers : Helpers) (b : ImplicitLocOpBuilder)
    (variantH : Value) (s : ReductionStrategy) :
    vectorTilingOps b (buildReductionStrategy helpers b variantH s) =
      vectorTileOps s ((blockDistributionStep helpers b variantH s).1.maybeLeadingHBlock,
          s.captures.maybeLeadingRank)
        ++ vectorTileOps s ((blockDistributionStep helpers b variantH s).1.gridReductionH,
            s.captures.reductionRank)
        ++ vectorTileOps s
            ((blockDistributionStep helpers b variantH s).1.maybeTiledTrailingHBlock,
            s.captures.maybeTrailingRank) := by
  unfold vectorTilingOps
  rw [emitted_buildReductionStrategy]
  simp only [List.filter_append, filter_isTileFuse_blockDistribution,
    filter_isTileFuse_commonTrailing, filter_isTileFuse_vectorTileOps]
  simp [TransformOp.isTileFuseToScfFor]

theorem vectorTileSizes_of_pos (s : ReductionStrategy) (rank : I64) (h : 0 < rank.val) :
    vectorTileSizes s rank = List.replicate (rank.val - 1).toNat 0 ++ [s.getVectorSize] := by
  unfold vectorTileSizes
  rw [toSizeT_sub_one_of_pos _ (by omega)]

theorem vectorTileOps_of_vectorSize (s : ReductionStrategy) (v : Int) (h : s.vectorSize = v)
    (slot : Value × I64) :
    vectorTileOps s slot =
      if slot.2.val = 0 then []
      else [TransformOp.tileFuseToScfFor slot.1 []
        (List.replicate (toSizeT (I64.sub slot.2 I64.one)) 0 ++ [v])] := by
  rw [vectorTileOps_eq]
  unfold vectorTileSizes ReductionStrategy.getVectorSize
  rw [h]

theorem vectorTileOps_scenario_a (context : MLIRContext) (l r t : Value) :
    vectorTileOps (scenarioA context) (l, (scenarioA context).captures.maybeLeadingRank)
        ++ vectorTileOps (scenarioA context) (r, (scenarioA context).captures.reductionRank)
        ++ vectorTileOps (scenarioA context) (t, (scenarioA context).captures.maybeTrailingRank)
      = [TransformOp.tileFuseToScfFor r [] [0, 0, 16]] := by
  have hc : (scenarioA context).captures = capturesOf 3 0 0 := rfl
  have h3 : toSizeT (I64.sub (I64.lit 3) I64.one) = 2 := by decide
  have hv3 : ¬ (I64.lit 3).val = 0 := by decide
  have hv0 : (I64.lit 0).val = 0 := by decide
  simp only [vectorTileOps_of_vectorSize (scenarioA context) 16 rfl, hc, capturesOf,
    if_neg hv3, if_pos hv0, h3]
  rfl

theorem vectorTileOps_scenario_b (context : MLIRContext) (l r t : Value) :
    vectorTileOps (scenarioB context) (l, (scenarioB context).captures.maybeLeadingRank)
        ++ vectorTileOps (scenarioB context) (r, (scenarioB context).captures.reductionRank)
        ++ vectorTileOps (scenarioB context) (t, (scenarioB context).captures.maybeTrailingRank)
      = [TransformOp.tileFuseToScfFor l [] [0, 16],
         TransformOp.tileFuseToScfFor r [] [16]] := by
  have hc : (scenarioB context).captures = capturesOf 1 2 0 := rfl
  have h2 : toSizeT (I64.sub (I64.lit 2) I64.one) = 1 := by decide
  have h1 : toSizeT (I64.sub (I64.lit 1) I64.one) = 0 := by decide
  have hv2 : ¬ (I64.lit 2).val = 0 := by decide
  have hv1 : ¬ (I64.lit 1).val = 0 := by decide
  have hv0 : (I64.lit 0).val = 0 := by decide
  simp only [vectorTileOps_of_vectorSize (scenarioB context) 16 rfl, hc, capturesOf,
    if_neg hv2, if_neg hv1, if_pos hv0, h1, h2]
  rfl

theorem create_scenario_a (context : MLIRContext) :
    ReductionStrategy.create context (capturesOf 3 0 0) = some (scenarioA context) := by
  rw [create_of_pos context (capturesOf 3 0 0) (by decide)]
  rfl

theorem create_scenario_b (context : MLIRContext) :
    ReductionStrategy.create context (capturesOf 1 2 0) = some (scenarioB context) := by
  rw [create_of_pos context (capturesOf 1 2 0) (by decide)]
  rfl

/-- C3: the tile-and-fuse operations `buildReductionStrategy` adds are those of the leading,
the reduction and the trailing slot, in this order.  A slot of rank `0` adds none.  A slot
of rank `k > 0` adds one operation on its handle, with an empty ordering argument and a
tile-size list of length `k` whose first `k - 1` entries are `0` and whose last entry is
`getVectorSize`; rank `1` gives the one-element list.  With `reductionRank = 1`, leading
rank `2`, trailing rank `0` the lists are `[0, 16]` for the leading handle and `[16]` for
the reduction handle, and the trailing slot adds nothing. -/
theorem vector_tiling_tile_sizes (helpers : Helpers) (b : ImplicitLocOpBuilder)
    (variantH : Value) (s : ReductionStrategy) :
    vectorTilingOps b (buildReductionStrategy helpers b variantH s) =
        vectorTileOps s ((blockDistributionStep helpers b variantH s).1.maybeLeadingHBlock,
            s.captures.maybeLeadingRank)
          ++ vectorTileOps s ((blockDistributionStep helpers b variantH s).1.gridReductionH,
              s.captures.reductionRank)
          ++ vectorTileOps s
              ((blockDistributionStep helpers b variantH s).1.maybeTiledTrailingHBlock,
              s.captures.maybeTrailingRank)
      ∧ (∀ (val : Value) (rank : I64), rank.val = 0 → vectorTileOps s (val, rank) = [])
      ∧ (∀ (val : Value) (rank : I64), 0 < rank.val →
          ∃ ts : List Int,
            vectorTileOps s (val, rank) = [TransformOp.tileFuseToScfFor val [] ts]
              ∧ (ts.length : Int) = rank.val
              ∧ (∀ i : Nat, i + 1 < ts.length → ts[i]? = some 0)
              ∧ ts[ts.length - 1]? = some s.getVectorSize
              ∧ (rank.val = 1 → ts = [s.getVectorSize]))
      ∧ (∀ context : MLIRContext,
          ReductionStrategy.create context (capturesOf 1 2 0) = some (scenarioB context)
          ∧ vectorTilingOps b (buildReductionStrategy helpers b variantH (scenarioB context))
            = [TransformOp.tileFuseToScfFor
                (blockDistributionStep helpers b variantH
                  (scenarioB context)).1.maybeLeadingHBlock
                [] [0, 16],
               TransformOp.tileFuseToScfFor
                (blockDistributionStep helpers b variantH
                  (scenarioB context)).1.gridReductionH
                [] [16]]) := by
  refine ⟨vectorTilingOps_buildReductionStrategy helpers b variantH s, ?_, ?_, ?_⟩
  · intro val rank h0
    rw [vectorTileOps_eq]
    simp [h0]
  · intro val rank hpos
    have hne : ¬ rank.val = 0 := by omega
    refine ⟨vectorTileSizes s rank, ?_, ?_, ?_, ?_, ?_⟩
    · rw [vectorTileOps_eq]
      simp [hne]
    · rw [vectorTileSizes_of_pos s rank hpos]
      simp only [List.length_append, List.length_replicate, List.length_singleton]
      omega
    · intro i hi
      rw [vectorTileSizes_of_pos s rank hpos] at hi ⊢
      simp only [List.length_append, List.length_replicate, List.length_singleton] at hi
      have hlt : i < (rank.val - 1).toNat := Nat.lt_of_succ_lt_succ hi
      rw [List.getElem?_append_left (by rw [List.length_replicate]; exact hlt)]
      rw [List.getElem?_replicate, if_pos hlt]
    · rw [vectorTileSizes_of_pos s rank hpos]
      simp [List.getElem?_append_right]
    · intro h1
      rw [vectorTileSizes_of_pos s rank hpos, h1]
      rfl
  · intro context
    refine ⟨create_scenario_b context, ?_⟩
    rw [vectorTilingOps_buildReductionStrategy]
    exact vectorTileOps_scenario_b context _ _ _

theorem vector_tiling_tile_sizes_witness :
    (ReductionStrategy.create ⟨0⟩ (capturesOf 1 2 0) = some (scenarioB ⟨0⟩)
      ∧ vectorTilingOps ⟨[]⟩ (buildReductionStrategy sampleHelpers ⟨[]⟩ (Value.arg 0)
          (scenarioB ⟨0⟩))
        = [TransformOp.tileFuseToScfFor (Value.arg 100) [] [0, 16],
           TransformOp.tileFuseToScfFor (Value.arg 102) [] [16]])
    ∧ (0 : Int) < (I64.lit 2).val
    ∧ ∃ ts : List Int,
        vectorTileOps (scenarioB ⟨0⟩)
            (Value.arg 100, I64.lit 2) = [TransformOp.tileFuseToScfFor (Value.arg 100) [] ts]
          ∧ (ts.length : Int) = (I64.lit 2).val
          ∧ (∀ i : Nat, i + 1 < ts.length → ts[i]? = some 0)
          ∧ ts[ts.length - 1]? = some (scenarioB ⟨0⟩).getVectorSize
          ∧ ((I64.lit 2).val = 1 → ts = [(scenarioB ⟨0⟩).getVectorSize]) :=
  ⟨(vector_tiling_tile_sizes sampleHelpers ⟨[]⟩ (Value.arg 0) (scenarioB ⟨0⟩)).2.2.2 ⟨0⟩,
    by decide,
    (vector_tiling_tile_sizes sampleHelpers ⟨[]⟩ (Value.arg 0) (scenarioB ⟨0⟩)).2.2.1
      (Value.arg 100) (I64.lit 2) (by decide)⟩

/-- C5 fails: on the sample helpers, for `reductionRank = 3` with no leading and no trailing
op, `create` returns the strategy `scenarioA`, and on it the tile-and-fuse operation on the
reduction handle carries the tile sizes `[0, 0, 16]`, not `[0, 16]`. -/
theorem rank_three_tile_sizes_differ :
    ReductionStrategy.create ⟨0⟩ (capturesOf 3 0 0) = some (scenarioA ⟨0⟩)
    ∧ vectorTilingOps ⟨[]⟩ (buildReductionStrategy sampleHelpers ⟨[]⟩ (Value.arg 0)
        (scenarioA ⟨0⟩))
      = [TransformOp.tileFuseToScfFor (Value.arg 102) [] [0, 0, 16]]
    ∧ vectorTilingOps ⟨[]⟩ (buildReductionStrategy sampleHelpers ⟨[]⟩ (Value.arg 0)
        (scenarioA ⟨0⟩))
      ≠ [TransformOp.tileFuseToScfFor
          (blockDistributionStep sampleHelpers ⟨[]⟩ (Value.arg 0)
            (scenarioA ⟨0⟩)).1.gridReductionH [] [0, 16]] := by
  refine ⟨create_scenario_a ⟨0⟩, ?_, ?_⟩ <;> decide

/-- C5 as amended: for `reductionRank = 3` with no leading and no trailing op, `create`
returns a strategy with the workgroup tile sizes `[8, 8]`, and `buildReductionStrategy` on
that strategy adds a single tile-and-fuse operation: on the reduction handle of the block
distribution, with tile sizes `[0, 0, 16]`. -/
theorem scenario_rank_three (helpers : Helpers) (b : ImplicitLocOpBuilder) (variantH : Value)
    (context : MLIRContext) :
    ∃ s : ReductionStrategy, ReductionStrategy.create context (capturesOf 3 0 0) = some s
      ∧ s.workgroupTileSizes = [8, 8]
      ∧ vectorTilingOps b (buildReductionStrategy helpers b variantH s)
          = [TransformOp.tileFuseToScfFor
              (blockDistributionStep helpers b variantH s).1.gridReductionH [] [0, 0, 16]] := by
  refine ⟨scenarioA context, create_scenario_a context, rfl, ?_⟩
  rw [vectorTilingOps_buildReductionStrategy]
  exact vectorTileOps_scenario_a context _ _ _

theorem tiling_ops_by_slot (helpers : Helpers) (b : ImplicitLocOpBuilder)
    (variantH : Value) (s : ReductionStrategy) :
    vectorTilingOps b (buildReductionStrategy helpers b variantH s) =
      (([Slot.leading, Slot.reduction, Slot.trailing].filter
          (fun sl => decide ((Slot.rank s.captures sl).val ≠ 0))).map
        (fun sl => TransformOp.tileFuseToScfFor
          (Slot.handle (blockDistributionStep helpers b variantH s).1 sl) []
          (vectorTileSizes s (Slot.rank s.captures sl)))) := by
  rw [vectorTilingOps_buildReductionStrategy]
  simp only [vectorTileOps_eq]
  by_cases hl : s.captures.maybeLeadingRank.val = 0 <;>
    by_cases hr : s.captures.reductionRank.val = 0 <;>
      by_cases ht : s.captures.maybeTrailingRank.val = 0 <;>
        simp [List.filter, Slot.rank, Slot.handle, hl, hr, ht]

/-- C6: the tile-and-fuse operations `buildReductionStrategy` adds are those of the slots
leading, reduction, trailing whose rank is not `0`, in this order: one operation per such
slot, on the handle of the slot.  The slots kept are in the order of the full list and none
occurs twice. -/
theorem vector_tiling_order (helpers : Helpers) (b : ImplicitLocOpBuilder) (variantH : Value)
    (s : ReductionStrategy) :
    vectorTilingOps b (buildReductionStrategy helpers b variantH s) =
        (([Slot.leading, Slot.reduction, Slot.trailing].filter
            (fun sl => decide ((Slot.rank s.captures sl).val ≠ 0))).map
          (fun sl => TransformOp.tileFuseToScfFor
            (Slot.handle (blockDistributionStep helpers b variantH s).1 sl) []
            (vectorTileSizes s (Slot.rank s.captures sl))))
      ∧ ([Slot.leading, Slot.reduction, Slot.trailing].filter
            (fun sl => decide ((Slot.rank s.captures sl).val ≠ 0))).Nodup
      ∧ List.Sublist
          ([Slot.leading, Slot.reduction, Slot.trailing].filter
            (fun sl => decide ((Slot.rank s.captures sl).val ≠ 0)))
          [Slot.leading, Slot.reduction, Slot.trailing] := by
  exact ⟨tiling_ops_by_slot helpers b variantH s, List.Nodup.filter _ (by decide),
    List.filter_sublist _⟩

/-- C8: the operations `buildReductionStrategy` adds to any builder are, in order: the
register-match-callbacks operation; the match operation named "reduction" on `variantH`
with mode `Propagate`, whose four results are the matched handles; the operations of the
block distribution helper, called on these four handles in the order leading, fill,
reduction, trailing; the tile-and-fuse operations, which are at most three: one for each of
the slots leading, reduction, trailing whose rank is not `0`, in this order, on the block
distribution handle of the slot, with an empty ordering argument and the tile sizes of the
rank of the slot; the operations of the common trailing strategy, called on `variantH`.
Nothing else is added and what the builder held before is kept in front. -/
theorem buildReductionStrategy_sequence (helpers : Helpers) (b : ImplicitLocOpBuilder)
    (variantH : Value) (s : ReductionStrategy) :
    ∃ (d : BlockDistributionResult) (tiling : List TransformOp) (trailing : List HelperOp),
      d = helpers.buildReductionStrategyBlockDistribution
            ⟨b.ops ++ [TransformOp.registerMatchCallbacks,
              TransformOp.matchCallback "reduction"
                transform.FailurePropagationMode.Propagate variantH]⟩
            (Value.result (b.ops.length + 1) 0) (Value.result (b.ops.length + 1) 1)
            (Value.result (b.ops.length + 1) 2) (Value.result (b.ops.length + 1) 3) s
      ∧ tiling = (([Slot.leading, Slot.reduction, Slot.trailing].filter
            (fun sl => decide ((Slot.rank s.captures sl).val ≠ 0))).map
          (fun sl => TransformOp.tileFuseToScfFor (Slot.handle d sl) []
            (vectorTileSizes s (Slot.rank s.captures sl))))
      ∧ tiling = vectorTilingOps b (buildReductionStrategy helpers b variantH s)
      ∧ tiling.length ≤ 3
      ∧ (∀ op ∈ tiling, ∃ target ts, op = TransformOp.tileFuseToScfFor target [] ts)
      ∧ trailing = helpers.buildCommonTrailingStrategy
            ⟨b.ops ++ [TransformOp.registerMatchCallbacks,
              TransformOp.matchCallback "reduction"
                transform.FailurePropagationMode.Propagate variantH]
              ++ d.ops.map TransformOp.blockDistribution ++ tiling⟩ variantH
      ∧ (buildReductionStrategy helpers b variantH s).ops =
          b.ops ++ [TransformOp.registerMatchCallbacks]
            ++ [TransformOp.matchCallback "reduction"
                transform.FailurePropagationMode.Propagate variantH]
            ++ d.ops.map TransformOp.blockDistribution
            ++ tiling
            ++ trailing.map TransformOp.commonTrailing
      ∧ (buildReductionStrategy helpers b variantH s).ops[b.ops.length + 1]? =
          some (TransformOp.matchCallback "reduction"
            transform.FailurePropagationMode.Propagate variantH) := by
  have hd : (blockDistributionStep helpers b variantH s).1 =
      helpers.buildReductionStrategyBlockDistribution
        ⟨b.ops ++ [TransformOp.registerMatchCallbacks,
          TransformOp.matchCallback "reduction"
            transform.FailurePropagationMode.Propagate variantH]⟩
        (Value.result (b.ops.length + 1) 0) (Value.result (b.ops.length + 1) 1)
        (Value.result (b.ops.length + 1) 2) (Value.result (b.ops.length + 1) 3) s := by
    simp [blockDistributionStep, matchStep, unpackRegisteredMatchCallback4,
      ImplicitLocOpBuilder.create]
  have hb4 : vectorTilingStep helpers b variantH s =
      ⟨b.ops ++ [TransformOp.registerMatchCallbacks,
          TransformOp.matchCallback "reduction"
            transform.FailurePropagationMode.Propagate variantH]
        ++ (blockDistributionStep helpers b variantH s).1.ops.map TransformOp.blockDistribution
        ++ vectorTilingOps b (buildReductionStrategy helpers b variantH s)⟩ := by
    have h := vectorTilingStep_ops helpers b variantH s
    rw [blockDistributionStep_ops, ← vectorTilingOps_buildReductionStrategy] at h
    cases hv : vectorTilingStep helpers b variantH s with
    | mk ops =>
      rw [hv] at h
      simp only at h
      rw [h]
  have hops : (buildReductionStrategy helpers b variantH s).ops =
      b.ops ++ [TransformOp.registerMatchCallbacks]
        ++ [TransformOp.matchCallback "reduction"
            transform.FailurePropagationMode.Propagate variantH]
        ++ (blockDistributionStep helpers b variantH s).1.ops.map TransformOp.blockDistribution
        ++ vectorTilingOps b (buildReductionStrategy helpers b variantH s)
        ++ (helpers.buildCommonTrailingStrategy (vectorTilingStep helpers b variantH s)
              variantH).map TransformOp.commonTrailing := by
    rw [vectorTilingOps_buildReductionStrategy]
    unfold buildReductionStrategy
    simp only [vectorTilingStep_ops, blockDistributionStep_ops, List.append_assoc,
      List.singleton_append]
  refine ⟨(blockDistributionStep helpers b variantH s).1,
    vectorTilingOps b (buildReductionStrategy helpers b variantH s),
    helpers.buildCommonTrailingStrategy (vectorTilingStep helpers b variantH s) variantH,
    hd, tiling_ops_by_slot helpers b variantH s, rfl, ?_, ?_, ?_, hops, ?_⟩
  · rw [vectorTilingOps_buildReductionStrategy]
    simp only [vectorTileOps_eq, List.length_append]
    split <;> split <;> split <;> simp
  · intro op hop
    rw [vectorTilingOps_buildReductionStrategy] at hop
    simp only [vectorTileOps_eq, List.mem_append] at hop
    rcases hop with (hop | hop) | hop <;>
      · split at hop
        · simp at hop
        · exact ⟨_, _, List.mem_singleton.mp hop⟩
  · rw [hb4]
  · rw [hops]
    simp only [List.append_assoc]
    rw [List.getElem?_append_right (Nat.le_add_right _ _), Nat.add_sub_cancel_left]
    simp

/-- C9: when the handles returned by the block distribution helper for the leading, the
reduction and the trailing op differ from the four handles of the initial match and from
the grid-distributed fill handle, every tile-and-fuse operation `buildReductionStrategy`
adds has as target one of these three block distribution handles, never a handle of the
initial match (the fill handle included) and never the grid-distributed fill handle; slot
by slot the targets are the leading, the reduction and the trailing handle of the block
distribution. -/
theorem vector_tiling_targets (helpers : Helpers) (b : ImplicitLocOpBuilder)
    (variantH : Value) (s : ReductionStrategy)
    (hfresh : ∀ x ∈ [(blockDistributionStep helpers b variantH s).1.maybeLeadingHBlock,
        (blockDistributionStep helpers b variantH s).1.gridReductionH,
        (blockDistributionStep helpers b variantH s).1.maybeTiledTrailingHBlock],
      x ∉ [(matchStep b variantH).1.1, (matchStep b variantH).1.2.1,
          (matchStep b variantH).1.2.2.1, (matchStep b variantH).1.2.2.2]
        ∧ x ≠ (blockDistributionStep helpers b variantH s).1.gridFillH) :
    vectorTilingOps b (buildReductionStrategy helpers b variantH s) =
        (([Slot.leading, Slot.reduction, Slot.trailing].filter
            (fun sl => decide ((Slot.rank s.captures sl).val ≠ 0))).map
          (fun sl => TransformOp.tileFuseToScfFor
            (Slot.handle (blockDistributionStep helpers b variantH s).1 sl) []
            (vectorTileSizes s (Slot.rank s.captures sl))))
      ∧ ∀ (target : Value) (ordering : List Nat) (ts : List Int),
          TransformOp.tileFuseToScfFor target ordering ts
              ∈ emitted b (buildReductionStrategy helpers b variantH s) →
            target ∈ [(blockDistributionStep helpers b variantH s).1.maybeLeadingHBlock,
                (blockDistributionStep helpers b variantH s).1.gridReductionH,
                (blockDistributionStep helpers b variantH s).1.maybeTiledTrailingHBlock]
              ∧ target ∉ [(matchStep b variantH).1.1, (matchStep b variantH).1.2.1,
                  (matchStep b variantH).1.2.2.1, (matchStep b variantH).1.2.2.2]
              ∧ target ≠ (blockDistributionStep helpers b variantH s).1.gridFillH := by
  have htargets : ∀ (target : Value) (ordering : List Nat) (ts : List Int),
      TransformOp.tileFuseToScfFor target ordering ts
          ∈ emitted b (buildReductionStrategy helpers b variantH s) →
        target ∈ [(blockDistributionStep helpers b variantH s).1.maybeLeadingHBlock,
            (blockDistributionStep helpers b variantH s).1.gridReductionH,
            (blockDistributionStep helpers b variantH s).1.maybeTiledTrailingHBlock] := by
    intro target ordering ts hmem
    have hin : TransformOp.tileFuseToScfFor target ordering ts
        ∈ vectorTilingOps b (buildReductionStrategy helpers b variantH s) := by
      unfold vectorTilingOps
      exact List.mem_filter.mpr ⟨hmem, rfl⟩
    rw [vectorTilingOps_buildReductionStrategy] at hin
    simp only [vectorTileOps_eq, List.mem_append] at hin
    rcases hin with (hin | hin) | hin <;>
      · split at hin
        · simp at hin
        · have h := List.mem_singleton.mp hin
          injection h with h1 _ _
          simp [h1]
  refine ⟨(tiling_ops_by_slot helpers b variantH s), ?_⟩
  intro target ordering ts hmem
  have ht := htargets target ordering ts hmem
  exact ⟨ht, hfresh target ht⟩

theorem vector_tiling_targets_witness :
    (∀ x ∈ [(blockDistributionStep sampleHelpers ⟨[]⟩ (Value.arg 0)
            (scenarioB ⟨0⟩)).1.maybeLeadingHBlock,
        (blockDistributionStep sampleHelpers ⟨[]⟩ (Value.arg 0)
            (scenarioB ⟨0⟩)).1.gridReductionH,
        (blockDistributionStep sampleHelpers ⟨[]⟩ (Value.arg 0)
            (scenarioB ⟨0⟩)).1.maybeTiledTrailingHBlock],
      x ∉ [(matchStep ⟨[]⟩ (Value.arg 0)).1.1, (matchStep ⟨[]⟩ (Value.arg 0)).1.2.1,
          (matchStep ⟨[]⟩ (Value.arg 0)).1.2.2.1, (matchStep ⟨[]⟩ (Value.arg 0)).1.2.2.2]
        ∧ x ≠ (blockDistributionStep sampleHelpers ⟨[]⟩ (Value.arg 0)
            (scenarioB ⟨0⟩)).1.gridFillH)
    ∧ TransformOp.tileFuseToScfFor (Value.arg 100) [] [0, 16]
        ∈ emitted ⟨[]⟩ (buildReductionStrategy sampleHelpers ⟨[]⟩ (Value.arg 0)
            (scenarioB ⟨0⟩))
    ∧ (Value.arg 100
          ∈ [(blockDistributionStep sampleHelpers ⟨[]⟩ (Value.arg 0)
              (scenarioB ⟨0⟩)).1.maybeLeadingHBlock,
            (blockDistributionStep sampleHelpers ⟨[]⟩ (Value.arg 0)
              (scenarioB ⟨0⟩)).1.gridReductionH,
            (blockDistributionStep sampleHelpers ⟨[]⟩ (Value.arg 0)
              (scenarioB ⟨0⟩)).1.maybeTiledTrailingHBlock]
        ∧ Value.arg 100
          ∉ [(matchStep ⟨[]⟩ (Value.arg 0)).1.1, (matchStep ⟨[]⟩ (Value.arg 0)).1.2.1,
            (matchStep ⟨[]⟩ (Value.arg 0)).1.2.2.1, (matchStep ⟨[]⟩ (Value.arg 0)).1.2.2.2]
        ∧ Value.arg 100 ≠ (blockDistributionStep sampleHelpers ⟨[]⟩ (Value.arg 0)
            (scenarioB ⟨0⟩)).1.gridFillH) :=
  ⟨by decide, by decide,
    (vector_tiling_targets sampleHelpers ⟨[]⟩ (Value.arg 0)
      (scenarioB ⟨0⟩) (by decide)).2
      (Value.arg 100) [] [0, 16] (by decide)⟩

end mlir.iree_compiler.cpu
